import Mathlib

/-!
Verification of the seichi-timed-stats-server translator
(src/servers/translator/src/main.rs).

Strings from the Rust side are modelled as lists of Unicode scalar values
(Lean `Char`), exactly the value space of a Rust `String`.  Rust's byte-level
operations (`str::len`, `str::is_ascii`, `str::as_bytes`,
`std::str::from_utf8`) are modelled through an explicit UTF-8 encoder and
decoder over `Nat` bytes.  Fallible Rust functions returning
`anyhow::Result` or `Result<_, Utf8Error>` are modelled with `Except`.
-/

namespace SeichiTranslator

/-- The error values the translator can produce.  `anyhow::Error` is a
dynamic error type; the constructors below record which code site built the
error (the two `from_string` branches, the `Utf8Error` of `as_str`, and an
arbitrary upstream repository failure carrying its message). -/
inductive TranslatorErr where
  | invalidEncoding (raw : List Char) : TranslatorErr
  | invalidLength (raw : List Char) : TranslatorErr
  | utf8Error : TranslatorErr
  | sourceFailure (msg : List Char) : TranslatorErr
deriving DecidableEq

/-- The UTF-8 encoding of one Unicode scalar value, as byte values.
This models how Rust strings store their characters (`str::as_bytes`). -/
def charUtf8Bytes (c : Char) : List Nat :=
  let n := c.toNat
  if n < 0x80 then [n]
  else if n < 0x800 then
    [0xC0 + n / 0x40, 0x80 + n % 0x40]
  else if n < 0x10000 then
    [0xE0 + n / 0x1000, 0x80 + n / 0x40 % 0x40, 0x80 + n % 0x40]
  else
    [0xF0 + n / 0x40000, 0x80 + n / 0x1000 % 0x40, 0x80 + n / 0x40 % 0x40,
      0x80 + n % 0x40]

/-- `str::as_bytes`: the UTF-8 byte sequence of a Rust string. -/
def strBytes (s : List Char) : List Nat :=
  s.flatMap charUtf8Bytes

/-- `String::len` in Rust is the length in bytes of the UTF-8 encoding. -/
def strLen (s : List Char) : Nat :=
  (strBytes s).length

/-- `str::is_ascii`: every byte of the string is at most 0x7F. -/
def strIsAscii (s : List Char) : Bool :=
  (strBytes s).all (fun b => b ≤ 0x7F)

/-- Decoding of one multi-byte UTF-8 sequence headed by the non-ASCII byte
`b0`, with `k` decoding the remaining bytes.  Continuation-byte ranges
follow the standard table that `std::str::from_utf8` validates against
(0xE0 requires 0xA0-0xBF, 0xED excludes the surrogate range, 0xF0 requires
0x90-0xBF, 0xF4 caps at 0x8F; bytes 0x80-0xC1 and 0xF5-0xFF never start a
sequence). -/
def decodeMultiByte (k : List Nat → Option (List Char)) (b0 : Nat)
    (rest : List Nat) : Option (List Char) :=
  match rest with
  | [] => none
  | b1 :: rest1 =>
    if 0xC2 ≤ b0 ∧ b0 ≤ 0xDF then
      if 0x80 ≤ b1 ∧ b1 ≤ 0xBF then
        (k rest1).map (fun cs =>
          Char.ofNat ((b0 - 0xC0) * 0x40 + (b1 - 0x80)) :: cs)
      else none
    else if 0xE0 ≤ b0 ∧ b0 ≤ 0xEF then
      match rest1 with
      | [] => none
      | b2 :: rest2 =>
        if (if b0 = 0xE0 then 0xA0 ≤ b1 ∧ b1 ≤ 0xBF
            else if b0 = 0xED then 0x80 ≤ b1 ∧ b1 ≤ 0x9F
            else 0x80 ≤ b1 ∧ b1 ≤ 0xBF) ∧ 0x80 ≤ b2 ∧ b2 ≤ 0xBF then
          (k rest2).map (fun cs =>
            Char.ofNat ((b0 - 0xE0) * 0x1000 + (b1 - 0x80) * 0x40 +
              (b2 - 0x80)) :: cs)
        else none
    else if 0xF0 ≤ b0 ∧ b0 ≤ 0xF4 then
      match rest1 with
      | [] => none
      | [_] => none
      | b2 :: b3 :: rest3 =>
        if (if b0 = 0xF0 then 0x90 ≤ b1 ∧ b1 ≤ 0xBF
            else if b0 = 0xF4 then 0x80 ≤ b1 ∧ b1 ≤ 0x8F
            else 0x80 ≤ b1 ∧ b1 ≤ 0xBF) ∧ 0x80 ≤ b2 ∧ b2 ≤ 0xBF ∧
            0x80 ≤ b3 ∧ b3 ≤ 0xBF then
          (k rest3).map (fun cs =>
            Char.ofNat ((b0 - 0xF0) * 0x40000 + (b1 - 0x80) * 0x1000 +
              (b2 - 0x80) * 0x40 + (b3 - 0x80)) :: cs)
        else none
    else none

/-- Fuelled UTF-8 decoding loop: each step consumes at least one byte, so
fuel equal to the byte count (as supplied by `utf8Decode`) never runs out
and the fuel is purely a termination device. -/
def utf8DecodeF : Nat → List Nat → Option (List Char)
  | _, [] => some []
  | 0, _ :: _ => none
  | fuel + 1, b0 :: rest =>
    if b0 < 0x80 then
      (utf8DecodeF fuel rest).map (fun cs => Char.ofNat b0 :: cs)
    else
      decodeMultiByte (utf8DecodeF fuel) b0 rest

/-- `std::str::from_utf8`, the strict UTF-8 decoder: `none` models
`Err(Utf8Error)`. -/
def utf8Decode (l : List Nat) : Option (List Char) :=
  utf8DecodeF l.length l

/-- `PlayerUuidString([u8; 36])` from the `domain` module: a 36-byte
identity token.  The byte array is modelled as a list of byte values;
`from_string`, the only constructor, always stores exactly 36 bytes. -/
structure PlayerUuidString where
  bytes : List Nat
deriving DecidableEq

/-- `PlayerUuidString::as_str`: `std::str::from_utf8(&self.0)`. -/
def PlayerUuidString.as_str (p : PlayerUuidString) :
    Except TranslatorErr (List Char) :=
  match utf8Decode p.bytes with
  | some s => .ok s
  | none => .error .utf8Error

/-- `PlayerUuidString::from_string` (main.rs lines 20-32): reject non-ASCII
input first, then reject input whose byte length is not 36, otherwise copy
the 36 bytes into the identity value. -/
def PlayerUuidString.from_string (str : List Char) :
    Except TranslatorErr PlayerUuidString :=
  if !strIsAscii str then
    .error (.invalidEncoding str)
  else if strLen str ≠ 36 then
    .error (.invalidLength str)
  else
    .ok ⟨strBytes str⟩

/-- `domain::Player`. -/
structure Player where
  uuid : PlayerUuidString
deriving DecidableEq

/-- `domain::PlayerBreakCount`. -/
structure PlayerBreakCount where
  player : Player
  break_count : Nat
deriving DecidableEq

/-- `domain::PlayerBuildCount`. -/
structure PlayerBuildCount where
  player : Player
  build_count : Nat
deriving DecidableEq

/-- `domain::PlayerPlayTicks`. -/
structure PlayerPlayTicks where
  player : Player
  play_ticks : Nat
deriving DecidableEq

/-- `domain::PlayerVoteCount`. -/
structure PlayerVoteCount where
  player : Player
  vote_count : Nat
deriving DecidableEq

/-- `domain::AggregatedPlayerData`: the four per-player counters. -/
structure AggregatedPlayerData where
  break_count : Nat
  build_count : Nat
  play_ticks : Nat
  vote_count : Nat
deriving DecidableEq

/-- `AggregatedPlayerData::default()`: all four counters zero. -/
def AggregatedPlayerData.default : AggregatedPlayerData :=
  ⟨0, 0, 0, 0⟩

/-- The underlying storage of `indexmap::IndexMap<Player, AggregatedPlayerData>`:
an insertion-ordered association list with pairwise-distinct keys (every map
built below starts empty and is only modified through `updateEntry`). -/
abbrev AggMap := List (Player × AggregatedPlayerData)

/-- `domain::KnownAggregatedPlayerData(pub IndexMap<Player, AggregatedPlayerData>)`. -/
structure KnownAggregatedPlayerData where
  map : AggMap
deriving DecidableEq

/-- One fold step of the merge:
`result_map.entry(p).or_default()` followed by a field assignment `f`.
`IndexMap::entry` keeps the position of an existing key and appends a
`Default::default()` entry at the end for an unseen key. -/
def updateEntry (m : AggMap) (p : Player)
    (f : AggregatedPlayerData → AggregatedPlayerData) : AggMap :=
  match m with
  | [] => [(p, f AggregatedPlayerData.default)]
  | (q, d) :: rest =>
    if q = p then (q, f d) :: rest
    else (q, d) :: updateEntry rest p f

/-- `IndexMap::get` on the association list. -/
def lookupAgg (m : AggMap) (q : Player) : Option AggregatedPlayerData :=
  match m with
  | [] => none
  | (p, d) :: rest => if p = q then some d else lookupAgg rest q

/-- One of the four `for` loops of
`get_all_known_aggregated_player_data` (main.rs lines 109-127): fold the
records of one fetch into the map, each step updating the entry of the
record's player with that record's single-field assignment. -/
def foldRecords {R : Type} (key : R → Player)
    (upd : R → AggregatedPlayerData → AggregatedPlayerData)
    (rs : List R) (m : AggMap) : AggMap :=
  rs.foldl (fun acc r => updateEntry acc (key r) (upd r)) m

/-- The pure merge of the four fetched sequences (main.rs lines 106-127):
starting from the empty map, run the four folds in the fixed order
break -> build -> play-ticks -> vote, each setting exactly one field. -/
def mergeMap (break_counts : List PlayerBreakCount)
    (build_counts : List PlayerBuildCount)
    (play_ticks : List PlayerPlayTicks)
    (vote_counts : List PlayerVoteCount) : AggMap :=
  foldRecords (fun r => r.player)
    (fun r d => { d with vote_count := r.vote_count }) vote_counts
    (foldRecords (fun r => r.player)
      (fun r d => { d with play_ticks := r.play_ticks }) play_ticks
      (foldRecords (fun r => r.player)
        (fun r d => { d with build_count := r.build_count }) build_counts
        (foldRecords (fun r => r.player)
          (fun r d => { d with break_count := r.break_count }) break_counts
          [])))

/-- `GetAllPlayerDataUseCase::get_all_known_aggregated_player_data`
(main.rs lines 96-130).  The four repository fetches are passed in as the
`Except` results they deliver; `tokio::try_join!` propagates an error as
soon as any of the four fails, which the sequential binds below model
(`?` on the joined tuple), and on success the four sequences are folded
into the insertion-ordered map. -/
def get_all_known_aggregated_player_data
    (break_counts_result : Except TranslatorErr (List PlayerBreakCount))
    (build_counts_result : Except TranslatorErr (List PlayerBuildCount))
    (play_ticks_result : Except TranslatorErr (List PlayerPlayTicks))
    (vote_counts_result : Except TranslatorErr (List PlayerVoteCount)) :
    Except TranslatorErr KnownAggregatedPlayerData := do
  let break_counts ← break_counts_result
  let build_counts ← build_counts_result
  let play_ticks ← play_ticks_result
  let vote_counts ← vote_counts_result
  return ⟨mergeMap break_counts build_counts play_ticks vote_counts⟩

/-- `presenter::estimate_presented_string_size` (main.rs lines 152-156):
a pre-allocation hint only, never affecting the rendered text. -/
def estimate_presented_string_size (data : KnownAggregatedPlayerData) : Nat :=
  100 + data.map.length * 340

/-- Fuelled base-10 digit loop; the fuel only drives structural
termination and `natDecimal` always supplies enough of it (the digit count
of `n` never exceeds `n + 1`). -/
def natDecimalAux : Nat → Nat → List Char
  | 0, _ => []
  | fuel + 1, n =>
    if n < 10 then [Char.ofNat (48 + n)]
    else natDecimalAux fuel (n / 10) ++ [Char.ofNat (48 + n % 10)]

/-- Base-10 rendering of an unsigned integer, as Rust's `Display` for
`u64` produces it (most significant digit first, no leading zeros,
a single `0` digit for zero). -/
def natDecimal (n : Nat) : List Char :=
  natDecimalAux (n + 1) n

/-- `presenter::write_record` (main.rs lines 158-171): append one sample
line to the accumulated output.  The format string
`player_data\x7buuid="..",kind=".."\x7d value` embeds the uuid string
returned by `as_str` verbatim (the `?` on `as_str` is the `let ... ←`). -/
def write_record (target : List Char) (player : Player) (kind : List Char)
    (value : Nat) : Except TranslatorErr (List Char) := do
  let uuidStr ← player.uuid.as_str
  return target ++ ("player_data\x7buuid=\"".data ++ uuidStr ++
    "\",kind=\"".data ++ kind ++ "\"\x7d ".data ++ natDecimal value ++ ['\n'])

/-- First header line written by the presenter. -/
def helpHeaderLine : List Char :=
  "# HELP player_data Player metrics, partitioned by uuid and kind\n".data

/-- Second header line written by the presenter. -/
def typeHeaderLine : List Char :=
  "# TYPE player_data gauge\n".data

/-- The body of the presenter's `for (player, data) in &data.0` loop
(main.rs lines 183-188): the four `write_record` calls in the fixed kind
order break_count, build_count, play_ticks, vote_count, each `?`
propagating failure. -/
def writePlayerRecords (acc : List Char)
    (pd : Player × AggregatedPlayerData) :
    Except TranslatorErr (List Char) := do
  let acc ← write_record acc pd.1 ("break_count".data) pd.2.break_count
  let acc ← write_record acc pd.1 ("build_count".data) pd.2.build_count
  let acc ← write_record acc pd.1 ("play_ticks".data) pd.2.play_ticks
  let acc ← write_record acc pd.1 ("vote_count".data) pd.2.vote_count
  return acc

/-- `presenter::present_player_data_as_prometheus_metrics`
(main.rs lines 173-191): two fixed header lines, then for every
(player, data) pair in map order the four records of that entry. -/
def present_player_data_as_prometheus_metrics
    (data : KnownAggregatedPlayerData) : Except TranslatorErr (List Char) := do
  let result : List Char := []
  let result := result ++ helpHeaderLine
  let result := result ++ typeHeaderLine
  let result ← data.map.foldlM writePlayerRecords result
  return result

/-- `const_error_response` (main.rs lines 194-200): HTTP 500 with the
fixed body, modelled as a status-code / body pair. -/
def const_error_response : Nat × List Char :=
  (500,
    "Encountered internal server error. Please contact the server administrator to resolve the issue.".data)

/-- The request handler of `handle_get_metrics` (main.rs lines 202-229):
run the aggregation use case, chain the presenter with `and_then`, answer
200 with the rendered text on success and the constant error response on
any failure (after logging, which has no observable effect on the
response). -/
def handle_get_metrics
    (break_counts_result : Except TranslatorErr (List PlayerBreakCount))
    (build_counts_result : Except TranslatorErr (List PlayerBuildCount))
    (play_ticks_result : Except TranslatorErr (List PlayerPlayTicks))
    (vote_counts_result : Except TranslatorErr (List PlayerVoteCount)) :
    Nat × List Char :=
  match (get_all_known_aggregated_player_data break_counts_result
      build_counts_result play_ticks_result vote_counts_result).bind
      present_player_data_as_prometheus_metrics with
  | .ok metrics_presentation => (200, metrics_presentation)
  | .error _ => const_error_response

theorem charUtf8Bytes_of_ascii (c : Char) (h : c.toNat ≤ 0x7F) :
    charUtf8Bytes c = [c.toNat] := by
  simp only [charUtf8Bytes]
  rw [if_pos (by omega)]

theorem strBytes_of_ascii (s : List Char) (h : ∀ c ∈ s, c.toNat ≤ 0x7F) :
    strBytes s = s.map Char.toNat := by
  induction s with
  | nil => rfl
  | cons c cs ih =>
    have hc : c.toNat ≤ 0x7F := h c (List.mem_cons_self c cs)
    have hcs : ∀ x ∈ cs, x.toNat ≤ 0x7F :=
      fun x hx => h x (List.mem_cons_of_mem _ hx)
    show (c :: cs).flatMap charUtf8Bytes = _
    rw [List.flatMap_cons, charUtf8Bytes_of_ascii c hc]
    rw [show cs.flatMap charUtf8Bytes = strBytes cs from rfl, ih hcs]
    rfl

theorem charUtf8Bytes_ascii_iff (c : Char) :
    ((charUtf8Bytes c).all (fun b => b ≤ 0x7F) = true) ↔ c.toNat ≤ 0x7F := by
  constructor
  · intro hall
    by_contra hgt
    simp only [charUtf8Bytes] at hall
    split_ifs at hall <;>
      simp only [List.all_cons, List.all_nil, Bool.and_eq_true,
        decide_eq_true_eq, and_true] at hall <;>
      omega
  · intro h
    rw [charUtf8Bytes_of_ascii c h]
    simp [h]

theorem strIsAscii_iff (s : List Char) :
    strIsAscii s = true ↔ ∀ c ∈ s, c.toNat ≤ 0x7F := by
  induction s with
  | nil => simp [strIsAscii, strBytes]
  | cons c cs ih =>
    show ((c :: cs).flatMap charUtf8Bytes).all _ = true ↔ _
    rw [List.flatMap_cons, List.all_append]
    rw [show cs.flatMap charUtf8Bytes = strBytes cs from rfl]
    simp only [Bool.and_eq_true]
    rw [show ((strBytes cs).all (fun b => b ≤ 0x7F) = true) ↔
      strIsAscii cs = true from Iff.rfl, ih, charUtf8Bytes_ascii_iff]
    constructor
    · rintro ⟨h1, h2⟩ x hx
      rcases List.mem_cons.1 hx with rfl | hx
      · exact h1
      · exact h2 x hx
    · intro hall
      exact ⟨hall c (List.mem_cons_self c cs),
        fun x hx => hall x (List.mem_cons_of_mem _ hx)⟩

theorem utf8DecodeF_of_ascii (bytes : List Nat) :
    ∀ fuel, (∀ b ∈ bytes, b ≤ 0x7F) → bytes.length ≤ fuel →
      utf8DecodeF fuel bytes = some (bytes.map Char.ofNat) := by
  induction bytes with
  | nil =>
    intro fuel _ _
    cases fuel <;> rfl
  | cons b bs ih =>
    intro fuel hb hlen
    match fuel with
    | 0 => simp at hlen
    | f + 1 =>
      rw [utf8DecodeF,
        if_pos (show b < 0x80 by
          have := hb b (List.mem_cons_self b bs)
          omega),
        ih f (fun x hx => hb x (List.mem_cons_of_mem _ hx))
          (by simpa using Nat.succ_le_succ_iff.1 hlen)]
      rfl

theorem utf8Decode_of_ascii (bytes : List Nat)
    (h : ∀ b ∈ bytes, b ≤ 0x7F) :
    utf8Decode bytes = some (bytes.map Char.ofNat) :=
  utf8DecodeF_of_ascii bytes bytes.length h le_rfl

theorem utf8Decode_strBytes_of_ascii (s : List Char)
    (h : ∀ c ∈ s, c.toNat ≤ 0x7F) : utf8Decode (strBytes s) = some s := by
  rw [strBytes_of_ascii s h, utf8Decode_of_ascii]
  · rw [List.map_map]
    have : (Char.ofNat ∘ Char.toNat) = id := by
      funext c
      exact Char.ofNat_toNat c
    rw [this, List.map_id]
  · intro b hbm
    rcases List.mem_map.1 hbm with ⟨c, hc, rfl⟩
    exact h c hc

/-- Claim C2: identity validation succeeds exactly on the ASCII strings of
length 36; it fails with the invalid-encoding error on any non-ASCII input,
fails with the invalid-length error on an ASCII input whose length is not
36, and on success returns an identity value holding exactly 36 bytes. -/
theorem from_string_validation_characterization (str : List Char) :
    ((∃ u, PlayerUuidString.from_string str = .ok u) ↔
      (strIsAscii str = true ∧ strLen str = 36))
    ∧ (strIsAscii str = false →
        PlayerUuidString.from_string str =
          .error (.invalidEncoding str))
    ∧ (strIsAscii str = true → strLen str ≠ 36 →
        PlayerUuidString.from_string str =
          .error (.invalidLength str))
    ∧ (∀ u, PlayerUuidString.from_string str = .ok u →
        u.bytes.length = 36) := by
  by_cases hA : strIsAscii str = true
  · by_cases hL : strLen str = 36
    · have hok : PlayerUuidString.from_string str = .ok ⟨strBytes str⟩ := by
        unfold PlayerUuidString.from_string
        rw [hA]
        simp [hL]
      refine ⟨⟨fun _ => ⟨hA, hL⟩, fun _ => ⟨⟨strBytes str⟩, hok⟩⟩,
        ?_, ?_, ?_⟩
      · intro hfalse
        rw [hA] at hfalse
        cases hfalse
      · intro _ hne
        exact absurd hL hne
      · intro u hu
        rw [hok] at hu
        cases hu
        exact hL
    · have herr : PlayerUuidString.from_string str =
          .error (.invalidLength str) := by
        unfold PlayerUuidString.from_string
        rw [hA]
        simp [hL]
      refine ⟨⟨?_, ?_⟩, ?_, ?_, ?_⟩
      · rintro ⟨u, hu⟩
        rw [herr] at hu
        cases hu
      · rintro ⟨_, h36⟩
        exact absurd h36 hL
      · intro hfalse
        rw [hA] at hfalse
        cases hfalse
      · intro _ _
        exact herr
      · intro u hu
        rw [herr] at hu
        cases hu
  · have hA' : strIsAscii str = false := by
      cases h : strIsAscii str
      · rfl
      · exact absurd h hA
    have herr : PlayerUuidString.from_string str =
        .error (.invalidEncoding str) := by
      unfold PlayerUuidString.from_string
      rw [hA']
      rfl
    refine ⟨⟨?_, ?_⟩, ?_, ?_, ?_⟩
    · rintro ⟨u, hu⟩
      rw [herr] at hu
      cases hu
    · rintro ⟨hT, _⟩
      exact absurd hT hA
    · intro _
      exact herr
    · intro hT
      exact absurd hT hA
    · intro u hu
      rw [herr] at hu
      cases hu

/-- A concrete 36-character ASCII string used by witnesses. -/
def sampleUuidChars : List Char := List.replicate 36 '1'

/-- Witness for C2: the sample 36-character ASCII string validates. -/
theorem from_string_validation_characterization_witness :
    ∃ u, PlayerUuidString.from_string sampleUuidChars = .ok u :=
  (from_string_validation_characterization sampleUuidChars).1.mpr (by decide)

/-- Claim C8: every ASCII string of length 36 validates successfully, and
converting the resulting identity back with `as_str` succeeds and returns
exactly the original string; the defensive invalid-encoding failure of the
reverse conversion is unreachable for identities built by the validator. -/
theorem from_string_as_str_roundtrip (str : List Char)
    (henc : strIsAscii str = true) (hlen : strLen str = 36) :
    ∃ u, PlayerUuidString.from_string str = .ok u ∧
      u.as_str = .ok str := by
  refine ⟨⟨strBytes str⟩, ?_, ?_⟩
  · unfold PlayerUuidString.from_string
    simp [henc, hlen]
  · unfold PlayerUuidString.as_str
    rw [show (⟨strBytes str⟩ : PlayerUuidString).bytes = strBytes str from rfl,
      utf8Decode_strBytes_of_ascii str ((strIsAscii_iff str).1 henc)]

/-- Witness for C8: round-trip at the sample identity string. -/
theorem from_string_as_str_roundtrip_witness :
    ∃ u, PlayerUuidString.from_string sampleUuidChars = .ok u ∧
      u.as_str = .ok sampleUuidChars :=
  from_string_as_str_roundtrip sampleUuidChars (by decide) (by decide)

/-- Claim C10: on an input that is both non-ASCII and not of length 36,
validation reports the invalid-encoding error (the ASCII check runs before
the length check), not the invalid-length error. -/
theorem from_string_encoding_check_precedes_length_check (str : List Char)
    (henc : strIsAscii str = false) (_hlen : strLen str ≠ 36) :
    PlayerUuidString.from_string str = .error (.invalidEncoding str) := by
  unfold PlayerUuidString.from_string
  simp [henc]

/-- Witness for C10: a one-character non-ASCII string (U+03B1, two UTF-8
bytes, so also not of length 36) fails with the invalid-encoding error. -/
theorem from_string_encoding_check_precedes_length_check_witness :
    PlayerUuidString.from_string [Char.ofNat 945] =
      .error (.invalidEncoding [Char.ofNat 945]) :=
  from_string_encoding_check_precedes_length_check [Char.ofNat 945]
    (by decide) (by decide)

theorem lookupAgg_updateEntry_self (m : AggMap) (p : Player)
    (f : AggregatedPlayerData → AggregatedPlayerData) :
    lookupAgg (updateEntry m p f) p =
      some (f ((lookupAgg m p).getD AggregatedPlayerData.default)) := by
  induction m with
  | nil => simp [updateEntry, lookupAgg]
  | cons qd rest ih =>
    obtain ⟨q, d⟩ := qd
    by_cases hq : q = p
    · subst hq
      simp [updateEntry, lookupAgg]
    · simp only [updateEntry, lookupAgg, if_neg hq]
      exact ih

theorem lookupAgg_updateEntry_other (m : AggMap) (p q : Player)
    (hne : p ≠ q) (f : AggregatedPlayerData → AggregatedPlayerData) :
    lookupAgg (updateEntry m p f) q = lookupAgg m q := by
  induction m with
  | nil => simp [updateEntry, lookupAgg, hne]
  | cons kd rest ih =>
    obtain ⟨k, d⟩ := kd
    by_cases hk : k = p
    · subst hk
      simp only [updateEntry, if_pos rfl, lookupAgg, if_neg hne]
    · simp only [updateEntry, if_neg hk, lookupAgg]
      by_cases hkq : k = q
      · rw [if_pos hkq, if_pos hkq]
      · rw [if_neg hkq, if_neg hkq]
        exact ih

theorem updateEntry_absent (m : AggMap) (p : Player)
    (f : AggregatedPlayerData → AggregatedPlayerData)
    (h : lookupAgg m p = none) :
    updateEntry m p f = m ++ [(p, f AggregatedPlayerData.default)] := by
  induction m with
  | nil => rfl
  | cons kd rest ih =>
    obtain ⟨k, d⟩ := kd
    simp only [lookupAgg] at h
    by_cases hk : k = p
    · rw [if_pos hk] at h
      cases h
    · rw [if_neg hk] at h
      simp only [updateEntry, if_neg hk, List.cons_append]
      rw [ih h]

theorem lookupAgg_foldRecords {R : Type} [DecidableEq R] (key : R → Player)
    (upd : R → AggregatedPlayerData → AggregatedPlayerData)
    (rs : List R) : ∀ (m : AggMap) (q : Player),
      lookupAgg (foldRecords key upd rs m) q =
        (if rs.filter (fun r => decide (key r = q)) = []
         then lookupAgg m q
         else some ((rs.filter (fun r => decide (key r = q))).foldl
            (fun d r => upd r d)
            ((lookupAgg m q).getD AggregatedPlayerData.default))) := by
  induction rs with
  | nil =>
    intro m q
    simp [foldRecords]
  | cons r rs ih =>
    intro m q
    have hstep : foldRecords key upd (r :: rs) m =
        foldRecords key upd rs (updateEntry m (key r) (upd r)) := rfl
    rw [hstep, ih]
    by_cases hk : key r = q
    · have hfilter : (r :: rs).filter (fun x => decide (key x = q)) =
          r :: rs.filter (fun x => decide (key x = q)) := by
        simp [List.filter_cons, hk]
      have hlook : lookupAgg (updateEntry m (key r) (upd r)) q =
          some (upd r ((lookupAgg m q).getD AggregatedPlayerData.default)) := by
        rw [hk, lookupAgg_updateEntry_self]
      rw [hfilter, hlook]
      by_cases hnil : rs.filter (fun x => decide (key x = q)) = []
      · rw [if_pos hnil, hnil, if_neg (by simp)]
        rfl
      · rw [if_neg hnil, if_neg (by simp)]
        rw [List.foldl_cons]
        rfl
    · have hfilter : (r :: rs).filter (fun x => decide (key x = q)) =
          rs.filter (fun x => decide (key x = q)) := by
        simp [List.filter_cons, hk]
      rw [hfilter, lookupAgg_updateEntry_other m (key r) q hk]

/-- The value carried by the last record of `rs`, threading `d` as the
value seen so far (`d` when `rs` is empty). -/
def lastValue {R : Type} (val : R → Nat) : List R → Nat → Nat
  | [], d => d
  | r :: rest, _ => lastValue val rest (val r)

/-- The count carried by the last record of `rs` whose player is `q`, or 0
(the `Default::default()` field value) when no record of `rs` mentions `q`. -/
def lastFieldValue {R : Type} (key : R → Player) (val : R → Nat)
    (rs : List R) (q : Player) : Nat :=
  lastValue val (rs.filter (fun r => decide (key r = q))) 0

/-- Whether some record of `rs` mentions player `q`. -/
def appearsIn {R : Type} (key : R → Player) (rs : List R) (q : Player) :
    Bool :=
  !(rs.filter (fun r => decide (key r = q))).isEmpty

theorem appearsIn_true_iff {R : Type} (key : R → Player) (rs : List R)
    (q : Player) : appearsIn key rs q = true ↔
      rs.filter (fun r => decide (key r = q)) ≠ [] := by
  unfold appearsIn
  cases hf : rs.filter (fun r => decide (key r = q)) <;> simp [hf]

theorem lastFieldValue_of_not_appears {R : Type} (key : R → Player)
    (val : R → Nat) (rs : List R) (q : Player)
    (h : appearsIn key rs q = false) : lastFieldValue key val rs q = 0 := by
  unfold appearsIn at h
  unfold lastFieldValue
  have hf : rs.filter (fun r => decide (key r = q)) = [] := by
    cases hf : rs.filter (fun r => decide (key r = q)) with
    | nil => rfl
    | cons a l =>
      rw [hf] at h
      simp at h
  rw [hf]
  rfl

theorem bool_eq_false_of_ne_true {b : Bool} (h : ¬ b = true) : b = false := by
  cases b
  · rfl
  · exact absurd rfl h

theorem foldl_set_break_count (rs : List PlayerBreakCount) :
    ∀ d0 : AggregatedPlayerData,
      rs.foldl (fun d r => { d with break_count := r.break_count }) d0 =
        { d0 with break_count :=
            lastValue (fun r => r.break_count) rs d0.break_count } := by
  induction rs with
  | nil =>
    intro d0
    rfl
  | cons r rest ih =>
    intro d0
    rw [List.foldl_cons, ih]
    rfl

theorem foldl_set_build_count (rs : List PlayerBuildCount) :
    ∀ d0 : AggregatedPlayerData,
      rs.foldl (fun d r => { d with build_count := r.build_count }) d0 =
        { d0 with build_count :=
            lastValue (fun r => r.build_count) rs d0.build_count } := by
  induction rs with
  | nil =>
    intro d0
    rfl
  | cons r rest ih =>
    intro d0
    rw [List.foldl_cons, ih]
    rfl

theorem foldl_set_play_ticks (rs : List PlayerPlayTicks) :
    ∀ d0 : AggregatedPlayerData,
      rs.foldl (fun d r => { d with play_ticks := r.play_ticks }) d0 =
        { d0 with play_ticks :=
            lastValue (fun r => r.play_ticks) rs d0.play_ticks } := by
  induction rs with
  | nil =>
    intro d0
    rfl
  | cons r rest ih =>
    intro d0
    rw [List.foldl_cons, ih]
    rfl

theorem foldl_set_vote_count (rs : List PlayerVoteCount) :
    ∀ d0 : AggregatedPlayerData,
      rs.foldl (fun d r => { d with vote_count := r.vote_count }) d0 =
        { d0 with vote_count :=
            lastValue (fun r => r.vote_count) rs d0.vote_count } := by
  induction rs with
  | nil =>
    intro d0
    rfl
  | cons r rest ih =>
    intro d0
    rw [List.foldl_cons, ih]
    rfl

/-- Full characterization of the merged map: a player is present exactly
when some fetched sequence mentions it, and each of its four fields holds
the value of the last record for that player in the corresponding
sequence, 0 when that sequence never mentions the player. -/
theorem lookupAgg_mergeMap (bc : List PlayerBreakCount)
    (bu : List PlayerBuildCount) (pt : List PlayerPlayTicks)
    (vc : List PlayerVoteCount) (q : Player) :
    lookupAgg (mergeMap bc bu pt vc) q =
      if appearsIn (fun r => r.player) bc q = true ∨
          appearsIn (fun r => r.player) bu q = true ∨
          appearsIn (fun r => r.player) pt q = true ∨
          appearsIn (fun r => r.player) vc q = true
      then some
        ⟨lastFieldValue (fun r => r.player) (fun r => r.break_count) bc q,
         lastFieldValue (fun r => r.player) (fun r => r.build_count) bu q,
         lastFieldValue (fun r => r.player) (fun r => r.play_ticks) pt q,
         lastFieldValue (fun r => r.player) (fun r => r.vote_count) vc q⟩
      else none := by
  have h1 : lookupAgg (foldRecords (fun r : PlayerBreakCount => r.player)
      (fun r d => { d with break_count := r.break_count }) bc []) q =
      if appearsIn (fun r => r.player) bc q = true
      then some ⟨lastFieldValue (fun r => r.player)
        (fun r => r.break_count) bc q, 0, 0, 0⟩
      else none := by
    rw [lookupAgg_foldRecords]
    by_cases hf : bc.filter (fun r => decide (r.player = q)) = []
    · rw [if_pos hf, if_neg]
      · rfl
      · rw [appearsIn_true_iff]
        intro hcon
        exact hcon hf
    · rw [if_neg hf, if_pos ((appearsIn_true_iff _ _ _).2 hf)]
      rw [show lookupAgg [] q = none from rfl]
      rw [show (none : Option AggregatedPlayerData).getD
        AggregatedPlayerData.default = AggregatedPlayerData.default from rfl]
      rw [foldl_set_break_count]
      rfl
  have h2 : lookupAgg (foldRecords (fun r : PlayerBuildCount => r.player)
      (fun r d => { d with build_count := r.build_count }) bu
      (foldRecords (fun r : PlayerBreakCount => r.player)
        (fun r d => { d with break_count := r.break_count }) bc [])) q =
      if appearsIn (fun r => r.player) bc q = true ∨
          appearsIn (fun r => r.player) bu q = true
      then some
        ⟨lastFieldValue (fun r => r.player) (fun r => r.break_count) bc q,
         lastFieldValue (fun r => r.player) (fun r => r.build_count) bu q,
         0, 0⟩
      else none := by
    rw [lookupAgg_foldRecords, h1]
    by_cases hf : bu.filter (fun r => decide (r.player = q)) = []
    · have hap : appearsIn (fun r : PlayerBuildCount => r.player) bu q
          = false := by
        unfold appearsIn
        rw [hf]
        rfl
      have hlf : lastFieldValue (fun r : PlayerBuildCount => r.player)
          (fun r => r.build_count) bu q = 0 :=
        lastFieldValue_of_not_appears _ _ _ _ hap
      rw [if_pos hf, hlf, hap]
      by_cases hb : appearsIn (fun r : PlayerBreakCount => r.player) bc q
          = true
      · rw [if_pos hb, if_pos (Or.inl hb)]
      · rw [if_neg hb, if_neg]
        rintro (h | h)
        · exact hb h
        · cases h
    · have hap : appearsIn (fun r : PlayerBuildCount => r.player) bu q
          = true := (appearsIn_true_iff _ _ _).2 hf
      rw [if_neg hf]
      by_cases hb : appearsIn (fun r : PlayerBreakCount => r.player) bc q
          = true
      · rw [if_pos hb, if_pos (Or.inl hb)]
        rw [foldl_set_build_count]
        rfl
      · rw [if_neg hb, if_pos (Or.inr hap)]
        rw [foldl_set_build_count]
        rw [lastFieldValue_of_not_appears (fun r : PlayerBreakCount => r.player)
          (fun r => r.break_count) bc q (bool_eq_false_of_ne_true hb)]
        rfl
  have h3 : lookupAgg (foldRecords (fun r : PlayerPlayTicks => r.player)
      (fun r d => { d with play_ticks := r.play_ticks }) pt
      (foldRecords (fun r : PlayerBuildCount => r.player)
        (fun r d => { d with build_count := r.build_count }) bu
        (foldRecords (fun r : PlayerBreakCount => r.player)
          (fun r d => { d with break_count := r.break_count }) bc []))) q =
      if appearsIn (fun r => r.player) bc q = true ∨
          appearsIn (fun r => r.player) bu q = true ∨
          appearsIn (fun r => r.player) pt q = true
      then some
        ⟨lastFieldValue (fun r => r.player) (fun r => r.break_count) bc q,
         lastFieldValue (fun r => r.player) (fun r => r.build_count) bu q,
         lastFieldValue (fun r => r.player) (fun r => r.play_ticks) pt q,
         0⟩
      else none := by
    rw [lookupAgg_foldRecords, h2]
    by_cases hf : pt.filter (fun r => decide (r.player = q)) = []
    · have hap : appearsIn (fun r : PlayerPlayTicks => r.player) pt q
          = false := by
        unfold appearsIn
        rw [hf]
        rfl
      have hlf : lastFieldValue (fun r : PlayerPlayTicks => r.player)
          (fun r => r.play_ticks) pt q = 0 :=
        lastFieldValue_of_not_appears _ _ _ _ hap
      rw [if_pos hf, hlf, hap]
      by_cases hb : appearsIn (fun r : PlayerBreakCount => r.player) bc q
            = true ∨
          appearsIn (fun r : PlayerBuildCount => r.player) bu q = true
      · rw [if_pos hb, if_pos]
        rcases hb with h | h
        · exact Or.inl h
        · exact Or.inr (Or.inl h)
      · rw [if_neg hb, if_neg]
        rintro (h | h | h)
        · exact hb (Or.inl h)
        · exact hb (Or.inr h)
        · cases h
    · have hap : appearsIn (fun r : PlayerPlayTicks => r.player) pt q
          = true := (appearsIn_true_iff _ _ _).2 hf
      rw [if_neg hf]
      by_cases hb : appearsIn (fun r : PlayerBreakCount => r.player) bc q
            = true ∨
          appearsIn (fun r : PlayerBuildCount => r.player) bu q = true
      · rw [if_pos hb, if_pos]
        · rw [foldl_set_play_ticks]
          rfl
        · rcases hb with h | h
          · exact Or.inl h
          · exact Or.inr (Or.inl h)
      · rw [if_neg hb, if_pos (Or.inr (Or.inr hap))]
        rw [foldl_set_play_ticks]
        rw [lastFieldValue_of_not_appears (fun r : PlayerBreakCount => r.player)
          (fun r => r.break_count) bc q
          (bool_eq_false_of_ne_true (fun h => hb (Or.inl h)))]
        rw [lastFieldValue_of_not_appears (fun r : PlayerBuildCount => r.player)
          (fun r => r.build_count) bu q
          (bool_eq_false_of_ne_true (fun h => hb (Or.inr h)))]
        rfl
  unfold mergeMap
  rw [lookupAgg_foldRecords, h3]
  by_cases hf : vc.filter (fun r => decide (r.player = q)) = []
  · have hap : appearsIn (fun r : PlayerVoteCount => r.player) vc q
        = false := by
      unfold appearsIn
      rw [hf]
      rfl
    have hlf : lastFieldValue (fun r : PlayerVoteCount => r.player)
        (fun r => r.vote_count) vc q = 0 :=
      lastFieldValue_of_not_appears _ _ _ _ hap
    rw [if_pos hf, hlf, hap]
    by_cases hb : appearsIn (fun r : PlayerBreakCount => r.player) bc q
          = true ∨
        appearsIn (fun r : PlayerBuildCount => r.player) bu q = true ∨
        appearsIn (fun r : PlayerPlayTicks => r.player) pt q = true
    · rw [if_pos hb, if_pos]
      rcases hb with h | h | h
      · exact Or.inl h
      · exact Or.inr (Or.inl h)
      · exact Or.inr (Or.inr (Or.inl h))
    · rw [if_neg hb, if_neg]
      rintro (h | h | h | h)
      · exact hb (Or.inl h)
      · exact hb (Or.inr (Or.inl h))
      · exact hb (Or.inr (Or.inr h))
      · cases h
  · have hap : appearsIn (fun r : PlayerVoteCount => r.player) vc q
        = true := (appearsIn_true_iff _ _ _).2 hf
    rw [if_neg hf]
    by_cases hb : appearsIn (fun r : PlayerBreakCount => r.player) bc q
          = true ∨
        appearsIn (fun r : PlayerBuildCount => r.player) bu q = true ∨
        appearsIn (fun r : PlayerPlayTicks => r.player) pt q = true
    · rw [if_pos hb, if_pos]
      · rw [foldl_set_vote_count]
        rfl
      · rcases hb with h | h | h
        · exact Or.inl h
        · exact Or.inr (Or.inl h)
        · exact Or.inr (Or.inr (Or.inl h))
    · rw [if_neg hb, if_pos (Or.inr (Or.inr (Or.inr hap)))]
      rw [foldl_set_vote_count]
      rw [lastFieldValue_of_not_appears (fun r : PlayerBreakCount => r.player)
        (fun r => r.break_count) bc q
        (bool_eq_false_of_ne_true (fun h => hb (Or.inl h)))]
      rw [lastFieldValue_of_not_appears (fun r : PlayerBuildCount => r.player)
        (fun r => r.build_count) bu q
        (bool_eq_false_of_ne_true (fun h => hb (Or.inr (Or.inl h))))]
      rw [lastFieldValue_of_not_appears (fun r : PlayerPlayTicks => r.player)
        (fun r => r.play_ticks) pt q
        (bool_eq_false_of_ne_true (fun h => hb (Or.inr (Or.inr h))))]
      rfl

/-- A sample player used by witnesses: uuid bytes are 36 copies of 0x31,
the ASCII digit 1. -/
def samplePlayer : Player := ⟨⟨List.replicate 36 49⟩⟩

/-- Claim C3: if any one of the four source fetches fails, the aggregation
returns an error; no map is produced from the successful fetches. -/
theorem aggregate_all_or_nothing
    (bc : Except TranslatorErr (List PlayerBreakCount))
    (bu : Except TranslatorErr (List PlayerBuildCount))
    (pt : Except TranslatorErr (List PlayerPlayTicks))
    (vc : Except TranslatorErr (List PlayerVoteCount))
    (hfail : (∃ e, bc = .error e) ∨ (∃ e, bu = .error e) ∨
      (∃ e, pt = .error e) ∨ (∃ e, vc = .error e)) :
    ∃ e, get_all_known_aggregated_player_data bc bu pt vc = .error e := by
  rcases hfail with ⟨e, he⟩ | ⟨e, he⟩ | ⟨e, he⟩ | ⟨e, he⟩
  · subst he
    exact ⟨e, rfl⟩
  · subst he
    cases bc with
    | error e0 => exact ⟨e0, rfl⟩
    | ok l1 => exact ⟨e, rfl⟩
  · subst he
    cases bc with
    | error e0 => exact ⟨e0, rfl⟩
    | ok l1 =>
      cases bu with
      | error e0 => exact ⟨e0, rfl⟩
      | ok l2 => exact ⟨e, rfl⟩
  · subst he
    cases bc with
    | error e0 => exact ⟨e0, rfl⟩
    | ok l1 =>
      cases bu with
      | error e0 => exact ⟨e0, rfl⟩
      | ok l2 =>
        cases pt with
        | error e0 => exact ⟨e0, rfl⟩
        | ok l3 => exact ⟨e, rfl⟩

/-- Witness for C3: three successful fetches (one of them non-empty) plus
one failed fetch produce an error, not a partial map. -/
theorem aggregate_all_or_nothing_witness :
    ∃ e, get_all_known_aggregated_player_data
      (.error (.sourceFailure ("connection refused".data)))
      (.ok [⟨samplePlayer, 5⟩]) (.ok []) (.ok []) = .error e :=
  aggregate_all_or_nothing _ _ _ _
    (Or.inl ⟨.sourceFailure ("connection refused".data), rfl⟩)

/-- Claim C4: last-write-wins per identity per field: when the records of
one sequence mentioning player `p` are exactly `r1` followed by `r2`, the
merged aggregate's field for that sequence's kind holds `r2`'s value (the
later record), for each of the four metric kinds. -/
theorem merge_last_write_wins (bc : List PlayerBreakCount)
    (bu : List PlayerBuildCount) (pt : List PlayerPlayTicks)
    (vc : List PlayerVoteCount) (m : KnownAggregatedPlayerData)
    (hm : get_all_known_aggregated_player_data
      (.ok bc) (.ok bu) (.ok pt) (.ok vc) = .ok m) (p : Player) :
    (∀ r1 r2 : PlayerBreakCount,
      bc.filter (fun r => decide (r.player = p)) = [r1, r2] →
      ∃ d, lookupAgg m.map p = some d ∧ d.break_count = r2.break_count)
    ∧ (∀ r1 r2 : PlayerBuildCount,
      bu.filter (fun r => decide (r.player = p)) = [r1, r2] →
      ∃ d, lookupAgg m.map p = some d ∧ d.build_count = r2.build_count)
    ∧ (∀ r1 r2 : PlayerPlayTicks,
      pt.filter (fun r => decide (r.player = p)) = [r1, r2] →
      ∃ d, lookupAgg m.map p = some d ∧ d.play_ticks = r2.play_ticks)
    ∧ (∀ r1 r2 : PlayerVoteCount,
      vc.filter (fun r => decide (r.player = p)) = [r1, r2] →
      ∃ d, lookupAgg m.map p = some d ∧ d.vote_count = r2.vote_count) := by
  have hmm : (Except.ok (⟨mergeMap bc bu pt vc⟩ : KnownAggregatedPlayerData)
      : Except TranslatorErr KnownAggregatedPlayerData) = .ok m := hm
  have hmap : m = ⟨mergeMap bc bu pt vc⟩ := (Except.ok.inj hmm).symm
  subst hmap
  refine ⟨?_, ?_, ?_, ?_⟩
  · intro r1 r2 hfilt
    have hap : appearsIn (fun r : PlayerBreakCount => r.player) bc p
        = true := by
      rw [appearsIn_true_iff, hfilt]
      intro hcon
      cases hcon
    have hl := lookupAgg_mergeMap bc bu pt vc p
    rw [if_pos (Or.inl hap)] at hl
    refine ⟨_, hl, ?_⟩
    show lastValue (fun r => r.break_count)
      (bc.filter (fun r => decide (r.player = p))) 0 = r2.break_count
    rw [hfilt]
    rfl
  · intro r1 r2 hfilt
    have hap : appearsIn (fun r : PlayerBuildCount => r.player) bu p
        = true := by
      rw [appearsIn_true_iff, hfilt]
      intro hcon
      cases hcon
    have hl := lookupAgg_mergeMap bc bu pt vc p
    rw [if_pos (Or.inr (Or.inl hap))] at hl
    refine ⟨_, hl, ?_⟩
    show lastValue (fun r => r.build_count)
      (bu.filter (fun r => decide (r.player = p))) 0 = r2.build_count
    rw [hfilt]
    rfl
  · intro r1 r2 hfilt
    have hap : appearsIn (fun r : PlayerPlayTicks => r.player) pt p
        = true := by
      rw [appearsIn_true_iff, hfilt]
      intro hcon
      cases hcon
    have hl := lookupAgg_mergeMap bc bu pt vc p
    rw [if_pos (Or.inr (Or.inr (Or.inl hap)))] at hl
    refine ⟨_, hl, ?_⟩
    show lastValue (fun r => r.play_ticks)
      (pt.filter (fun r => decide (r.player = p))) 0 = r2.play_ticks
    rw [hfilt]
    rfl
  · intro r1 r2 hfilt
    have hap : appearsIn (fun r : PlayerVoteCount => r.player) vc p
        = true := by
      rw [appearsIn_true_iff, hfilt]
      intro hcon
      cases hcon
    have hl := lookupAgg_mergeMap bc bu pt vc p
    rw [if_pos (Or.inr (Or.inr (Or.inr hap)))] at hl
    refine ⟨_, hl, ?_⟩
    show lastValue (fun r => r.vote_count)
      (vc.filter (fun r => decide (r.player = p))) 0 = r2.vote_count
    rw [hfilt]
    rfl

/-- Witness for C4: two break-count records 1 then 2 for the same player
produce the aggregate value 2 (the later record), not 1 and not 3. -/
theorem merge_last_write_wins_witness :
    ∃ d, lookupAgg (KnownAggregatedPlayerData.mk
        (mergeMap [⟨samplePlayer, 1⟩, ⟨samplePlayer, 2⟩] [] [] [])).map
        samplePlayer = some d ∧ d.break_count = 2 :=
  (merge_last_write_wins [⟨samplePlayer, 1⟩, ⟨samplePlayer, 2⟩] [] [] []
      ⟨mergeMap [⟨samplePlayer, 1⟩, ⟨samplePlayer, 2⟩] [] [] []⟩ rfl
      samplePlayer).1 ⟨samplePlayer, 1⟩ ⟨samplePlayer, 2⟩ (by decide)

/-- The number of non-zero fields of an aggregate. -/
def nonzeroFieldCount (d : AggregatedPlayerData) : Nat :=
  (if d.break_count ≠ 0 then 1 else 0) +
  (if d.build_count ≠ 0 then 1 else 0) +
  (if d.play_ticks ≠ 0 then 1 else 0) +
  (if d.vote_count ≠ 0 then 1 else 0)

/-- Counterexample to C5 as stated: the break-count sequence carries one
record for the player with count 0, the other three sequences are empty,
so the player appears in exactly one of the four sequences — yet its
aggregate is all-zero: it has zero non-zero fields, not exactly one. -/
theorem merge_single_sequence_nonzero_cex :
    get_all_known_aggregated_player_data
        (.ok [⟨samplePlayer, 0⟩]) (.ok []) (.ok []) (.ok [])
      = .ok ⟨[(samplePlayer, ⟨0, 0, 0, 0⟩)]⟩ ∧
    nonzeroFieldCount ⟨0, 0, 0, 0⟩ = 0 :=
  ⟨rfl, rfl⟩

/-- Claim C5 (amended): an identity appearing in exactly one of the four
input sequences yields an aggregate whose field for that sequence's kind
equals the last value reported for the identity and whose other three
fields are exactly 0 — so at most that one field is non-zero, and it is
non-zero exactly when the reported value is. -/
theorem merge_single_sequence_fields (bc : List PlayerBreakCount)
    (bu : List PlayerBuildCount) (pt : List PlayerPlayTicks)
    (vc : List PlayerVoteCount) (m : KnownAggregatedPlayerData)
    (hm : get_all_known_aggregated_player_data
      (.ok bc) (.ok bu) (.ok pt) (.ok vc) = .ok m) (p : Player) :
    (appearsIn (fun r => r.player) bc p = true →
      appearsIn (fun r => r.player) bu p = false →
      appearsIn (fun r => r.player) pt p = false →
      appearsIn (fun r => r.player) vc p = false →
      lookupAgg m.map p = some ⟨lastFieldValue (fun r => r.player)
        (fun r => r.break_count) bc p, 0, 0, 0⟩)
    ∧ (appearsIn (fun r => r.player) bc p = false →
      appearsIn (fun r => r.player) bu p = true →
      appearsIn (fun r => r.player) pt p = false →
      appearsIn (fun r => r.player) vc p = false →
      lookupAgg m.map p = some ⟨0, lastFieldValue (fun r => r.player)
        (fun r => r.build_count) bu p, 0, 0⟩)
    ∧ (appearsIn (fun r => r.player) bc p = false →
      appearsIn (fun r => r.player) bu p = false →
      appearsIn (fun r => r.player) pt p = true →
      appearsIn (fun r => r.player) vc p = false →
      lookupAgg m.map p = some ⟨0, 0, lastFieldValue (fun r => r.player)
        (fun r => r.play_ticks) pt p, 0⟩)
    ∧ (appearsIn (fun r => r.player) bc p = false →
      appearsIn (fun r => r.player) bu p = false →
      appearsIn (fun r => r.player) pt p = false →
      appearsIn (fun r => r.player) vc p = true →
      lookupAgg m.map p = some ⟨0, 0, 0, lastFieldValue (fun r => r.player)
        (fun r => r.vote_count) vc p⟩) := by
  have hmm : (Except.ok (⟨mergeMap bc bu pt vc⟩ : KnownAggregatedPlayerData)
      : Except TranslatorErr KnownAggregatedPlayerData) = .ok m := hm
  have hmap : m = ⟨mergeMap bc bu pt vc⟩ := (Except.ok.inj hmm).symm
  subst hmap
  have hl := lookupAgg_mergeMap bc bu pt vc p
  refine ⟨?_, ?_, ?_, ?_⟩
  · intro h1 h2 h3 h4
    rw [if_pos (Or.inl h1)] at hl
    rw [hl, lastFieldValue_of_not_appears _ (fun r => r.build_count) bu p h2,
      lastFieldValue_of_not_appears _ (fun r => r.play_ticks) pt p h3,
      lastFieldValue_of_not_appears _ (fun r => r.vote_count) vc p h4]
  · intro h1 h2 h3 h4
    rw [if_pos (Or.inr (Or.inl h2))] at hl
    rw [hl, lastFieldValue_of_not_appears _ (fun r => r.break_count) bc p h1,
      lastFieldValue_of_not_appears _ (fun r => r.play_ticks) pt p h3,
      lastFieldValue_of_not_appears _ (fun r => r.vote_count) vc p h4]
  · intro h1 h2 h3 h4
    rw [if_pos (Or.inr (Or.inr (Or.inl h3)))] at hl
    rw [hl, lastFieldValue_of_not_appears _ (fun r => r.break_count) bc p h1,
      lastFieldValue_of_not_appears _ (fun r => r.build_count) bu p h2,
      lastFieldValue_of_not_appears _ (fun r => r.vote_count) vc p h4]
  · intro h1 h2 h3 h4
    rw [if_pos (Or.inr (Or.inr (Or.inr h4)))] at hl
    rw [hl, lastFieldValue_of_not_appears _ (fun r => r.break_count) bc p h1,
      lastFieldValue_of_not_appears _ (fun r => r.build_count) bu p h2,
      lastFieldValue_of_not_appears _ (fun r => r.play_ticks) pt p h3]

/-- Witness for the amended C5: a player reported only by the break-count
sequence, with value 5, aggregates to (5, 0, 0, 0). -/
theorem merge_single_sequence_fields_witness :
    lookupAgg (KnownAggregatedPlayerData.mk
        (mergeMap [⟨samplePlayer, 5⟩] [] [] [])).map samplePlayer =
      some ⟨5, 0, 0, 0⟩ := by
  have h := (merge_single_sequence_fields [⟨samplePlayer, 5⟩] [] [] []
      ⟨mergeMap [⟨samplePlayer, 5⟩] [] [] []⟩ rfl samplePlayer).1
    (by decide) (by decide) (by decide) (by decide)
  rw [h]
  rfl

/-- Claim C7: every fold step of the merge on a record `r` either appends
a fresh aggregate for an unseen player — the zero-initialized default with
only the record's field set — or updates the existing aggregate changing
only the record's field; the entry of every other player is unchanged by
the step.  Stated for the step of each of the four metric kinds. -/
theorem fold_step_frame :
    (∀ (m : AggMap) (r : PlayerBreakCount),
      (lookupAgg m r.player = none →
        updateEntry m r.player
            (fun a => { a with break_count := r.break_count }) =
          m ++ [(r.player, { AggregatedPlayerData.default with
            break_count := r.break_count })])
      ∧ (∀ d, lookupAgg m r.player = some d →
          lookupAgg (updateEntry m r.player
              (fun a => { a with break_count := r.break_count })) r.player =
            some { d with break_count := r.break_count })
      ∧ (∀ q, q ≠ r.player →
          lookupAgg (updateEntry m r.player
              (fun a => { a with break_count := r.break_count })) q =
            lookupAgg m q))
    ∧ (∀ (m : AggMap) (r : PlayerBuildCount),
      (lookupAgg m r.player = none →
        updateEntry m r.player
            (fun a => { a with build_count := r.build_count }) =
          m ++ [(r.player, { AggregatedPlayerData.default with
            build_count := r.build_count })])
      ∧ (∀ d, lookupAgg m r.player = some d →
          lookupAgg (updateEntry m r.player
              (fun a => { a with build_count := r.build_count })) r.player =
            some { d with build_count := r.build_count })
      ∧ (∀ q, q ≠ r.player →
          lookupAgg (updateEntry m r.player
              (fun a => { a with build_count := r.build_count })) q =
            lookupAgg m q))
    ∧ (∀ (m : AggMap) (r : PlayerPlayTicks),
      (lookupAgg m r.player = none →
        updateEntry m r.player
            (fun a => { a with play_ticks := r.play_ticks }) =
          m ++ [(r.player, { AggregatedPlayerData.default with
            play_ticks := r.play_ticks })])
      ∧ (∀ d, lookupAgg m r.player = some d →
          lookupAgg (updateEntry m r.player
              (fun a => { a with play_ticks := r.play_ticks })) r.player =
            some { d with play_ticks := r.play_ticks })
      ∧ (∀ q, q ≠ r.player →
          lookupAgg (updateEntry m r.player
              (fun a => { a with play_ticks := r.play_ticks })) q =
            lookupAgg m q))
    ∧ (∀ (m : AggMap) (r : PlayerVoteCount),
      (lookupAgg m r.player = none →
        updateEntry m r.player
            (fun a => { a with vote_count := r.vote_count }) =
          m ++ [(r.player, { AggregatedPlayerData.default with
            vote_count := r.vote_count })])
      ∧ (∀ d, lookupAgg m r.player = some d →
          lookupAgg (updateEntry m r.player
              (fun a => { a with vote_count := r.vote_count })) r.player =
            some { d with vote_count := r.vote_count })
      ∧ (∀ q, q ≠ r.player →
          lookupAgg (updateEntry m r.player
              (fun a => { a with vote_count := r.vote_count })) q =
            lookupAgg m q)) := by
  refine ⟨?_, ?_, ?_, ?_⟩
  all_goals
    intro m r
    refine ⟨fun hnone => updateEntry_absent m r.player _ hnone,
      fun d hd => ?_,
      fun q hq => lookupAgg_updateEntry_other m r.player q
        (fun h => hq h.symm) _⟩
    rw [lookupAgg_updateEntry_self, hd]
    rfl

/-- Witness for C7: one break-count fold step on the empty map appends the
zero-initialized aggregate with only break_count set. -/
theorem fold_step_frame_witness :
    updateEntry [] samplePlayer
        (fun a => { a with break_count := (3 : Nat) }) =
      [] ++ [(samplePlayer, { AggregatedPlayerData.default with
        break_count := (3 : Nat) })] :=
  (fold_step_frame.1 [] ⟨samplePlayer, 3⟩).1 rfl

/-- The string form of a validated identity: its bytes read as characters
(exactly what `as_str` yields on an all-ASCII identity). -/
def uuidChars (p : Player) : List Char :=
  p.uuid.bytes.map Char.ofNat

/-- One rendered sample line:
`player_data\x7buuid="<u>",kind="<k>"\x7d <v>` and a newline, the uuid
and kind embedded verbatim. -/
def prometheusRecordLine (u k : List Char) (v : Nat) : List Char :=
  "player_data\x7buuid=\"".data ++ u ++ "\",kind=\"".data ++ k ++
    "\"\x7d ".data ++ natDecimal v ++ ['\n']

/-- A rendered sample line without its terminating newline. -/
def prometheusRecordBody (u k : List Char) (v : Nat) : List Char :=
  "player_data\x7buuid=\"".data ++ u ++ "\",kind=\"".data ++ k ++
    "\"\x7d ".data ++ natDecimal v

/-- The four sample lines rendered for one map entry, in the fixed kind
order. -/
def playerRecordBlock (u : List Char) (d : AggregatedPlayerData) :
    List Char :=
  prometheusRecordLine u ("break_count".data) d.break_count ++
    prometheusRecordLine u ("build_count".data) d.build_count ++
    prometheusRecordLine u ("play_ticks".data) d.play_ticks ++
    prometheusRecordLine u ("vote_count".data) d.vote_count

theorem except_bind_ok {ε α β : Type} (x : α) (f : α → Except ε β) :
    (Except.ok x >>= f : Except ε β) = f x := rfl

theorem except_pure_eq {ε α : Type} (x : α) :
    (pure x : Except ε α) = Except.ok x := rfl

theorem as_str_of_ascii (p : Player)
    (h : ∀ b ∈ p.uuid.bytes, b ≤ 0x7F) :
    p.uuid.as_str = .ok (uuidChars p) := by
  unfold PlayerUuidString.as_str uuidChars
  rw [utf8Decode_of_ascii _ h]

theorem write_record_eq (target : List Char) (player : Player)
    (kind : List Char) (value : Nat) (uuidStr : List Char)
    (h : player.uuid.as_str = .ok uuidStr) :
    write_record target player kind value =
      .ok (target ++ prometheusRecordLine uuidStr kind value) := by
  unfold write_record prometheusRecordLine
  rw [h, except_bind_ok]
  exact except_pure_eq _

theorem writePlayerRecords_eq (acc : List Char)
    (pd : Player × AggregatedPlayerData)
    (h : ∀ b ∈ pd.1.uuid.bytes, b ≤ 0x7F) :
    writePlayerRecords acc pd =
      .ok (acc ++ playerRecordBlock (uuidChars pd.1) pd.2) := by
  have hw := fun (target kind : List Char) (value : Nat) =>
    write_record_eq target pd.1 kind value (uuidChars pd.1)
      (as_str_of_ascii pd.1 h)
  unfold writePlayerRecords
  simp only [hw, except_bind_ok, except_pure_eq, playerRecordBlock,
    List.append_assoc]

theorem foldlM_writePlayerRecords (entries : AggMap) :
    ∀ acc : List Char,
      (∀ pd ∈ entries, ∀ b ∈ pd.1.uuid.bytes, b ≤ 0x7F) →
      List.foldlM writePlayerRecords acc entries =
        .ok (acc ++ entries.flatMap (fun pd =>
          playerRecordBlock (uuidChars pd.1) pd.2)) := by
  induction entries with
  | nil =>
    intro acc _
    show (pure acc : Except TranslatorErr (List Char)) = .ok (acc ++ [])
    rw [List.append_nil]
    exact except_pure_eq _
  | cons pd rest ih =>
    intro acc h
    rw [List.foldlM_cons,
      writePlayerRecords_eq acc pd (h pd (List.mem_cons_self _ _)),
      except_bind_ok,
      ih _ (fun x hx => h x (List.mem_cons_of_mem _ hx)),
      List.flatMap_cons, List.append_assoc]

/-- Normal form of the presenter on a map of all-ASCII identities. -/
theorem present_ok (data : KnownAggregatedPlayerData)
    (h : ∀ pd ∈ data.map, ∀ b ∈ pd.1.uuid.bytes, b ≤ 0x7F) :
    present_player_data_as_prometheus_metrics data =
      .ok (helpHeaderLine ++ typeHeaderLine ++
        data.map.flatMap (fun pd =>
          playerRecordBlock (uuidChars pd.1) pd.2)) := by
  show (List.foldlM writePlayerRecords
      ([] ++ helpHeaderLine ++ typeHeaderLine) data.map >>=
    fun result => pure result) = _
  rw [foldlM_writePlayerRecords data.map ([] ++ helpHeaderLine ++
    typeHeaderLine) h, except_bind_ok, except_pure_eq]
  simp [List.append_assoc]

/-- Claim C9: on a map of validated (all-ASCII) identities the renderer
succeeds, and every data record emitted is exactly
`player_data\x7buuid="<identity>",kind="<kind>"\x7d <value>` plus a
newline (see `prometheusRecordLine`): the four metric kinds share the one
family name player_data and differ only in the kind label value
break_count / build_count / play_ticks / vote_count, and the identity's 36
bytes are embedded verbatim — unescaped — as the uuid label value
(`uuidChars`, the raw bytes read as characters). -/
theorem rendered_record_format (data : KnownAggregatedPlayerData)
    (h : ∀ pd ∈ data.map, ∀ b ∈ pd.1.uuid.bytes, b ≤ 0x7F) :
    present_player_data_as_prometheus_metrics data =
      .ok (helpHeaderLine ++ typeHeaderLine ++
        data.map.flatMap (fun pd =>
          prometheusRecordLine (uuidChars pd.1) ("break_count".data)
              pd.2.break_count ++
            prometheusRecordLine (uuidChars pd.1) ("build_count".data)
              pd.2.build_count ++
            prometheusRecordLine (uuidChars pd.1) ("play_ticks".data)
              pd.2.play_ticks ++
            prometheusRecordLine (uuidChars pd.1) ("vote_count".data)
              pd.2.vote_count)) :=
  present_ok data h

/-- Witness for C9: the rendered text for one concrete entry. -/
theorem rendered_record_format_witness :
    present_player_data_as_prometheus_metrics
        ⟨[(samplePlayer, ⟨1, 2, 3, 4⟩)]⟩ =
      .ok (helpHeaderLine ++ typeHeaderLine ++
        ([(samplePlayer, (⟨1, 2, 3, 4⟩ : AggregatedPlayerData))].flatMap
          (fun pd =>
            prometheusRecordLine (uuidChars pd.1) ("break_count".data)
                pd.2.break_count ++
              prometheusRecordLine (uuidChars pd.1) ("build_count".data)
                pd.2.build_count ++
              prometheusRecordLine (uuidChars pd.1) ("play_ticks".data)
                pd.2.play_ticks ++
              prometheusRecordLine (uuidChars pd.1) ("vote_count".data)
                pd.2.vote_count))) :=
  rendered_record_format ⟨[(samplePlayer, ⟨1, 2, 3, 4⟩)]⟩ (by decide)

/-- Split a character stream into newline-terminated lines, each segment
keeping the newline that closed it; a trailing run without a newline is
returned as a final unterminated segment. -/
def splitNl : List Char → List (List Char)
  | [] => []
  | c :: rest =>
    if c = '\n' then ['\n'] :: splitNl rest
    else
      match splitNl rest with
      | [] => [[c]]
      | l :: ls => (c :: l) :: ls

theorem splitNl_append (body rest : List Char) (hbody : '\n' ∉ body) :
    splitNl (body ++ '\n' :: rest) = (body ++ ['\n']) :: splitNl rest := by
  induction body with
  | nil =>
    rw [List.nil_append, splitNl, if_pos rfl, List.nil_append]
  | cons c cs ih =>
    have hc : ¬ c = '\n' := fun h => hbody (List.mem_cons.2 (Or.inl h.symm))
    have hcs : '\n' ∉ cs := fun h => hbody (List.mem_cons_of_mem _ h)
    rw [List.cons_append, splitNl, if_neg hc, ih hcs]
    rfl

theorem char_toNat_ofNat_small : ∀ b < 128, (Char.ofNat b).toNat = b := by
  decide

theorem natDecimalAux_digits (fuel : Nat) :
    ∀ n c, c ∈ natDecimalAux fuel n → 48 ≤ c.toNat ∧ c.toNat ≤ 57 := by
  induction fuel with
  | zero =>
    intro n c hc
    cases hc
  | succ fuel ih =>
    intro n c hc
    rw [natDecimalAux] at hc
    by_cases hn : n < 10
    · rw [if_pos hn] at hc
      rcases List.mem_singleton.1 hc with rfl
      rw [char_toNat_ofNat_small (48 + n) (by omega)]
      omega
    · rw [if_neg hn] at hc
      rcases List.mem_append.1 hc with h | h
      · exact ih (n / 10) c h
      · rcases List.mem_singleton.1 h with rfl
        rw [char_toNat_ofNat_small (48 + n % 10) (by omega)]
        omega

theorem natDecimal_digits (n : Nat) :
    ∀ c ∈ natDecimal n, 48 ≤ c.toNat ∧ c.toNat ≤ 57 :=
  fun c hc => natDecimalAux_digits (n + 1) n c hc

theorem nl_not_mem_natDecimal (n : Nat) : '\n' ∉ natDecimal n := by
  intro h
  have hd := natDecimal_digits n _ h
  have h10 : ('\n' : Char).toNat = 10 := rfl
  rw [h10] at hd
  omega

theorem nl_not_mem_uuidChars (p : Player)
    (hascii : ∀ b ∈ p.uuid.bytes, b ≤ 0x7F)
    (hnl : (10 : Nat) ∉ p.uuid.bytes) : '\n' ∉ uuidChars p := by
  intro hmem
  rcases List.mem_map.1 hmem with ⟨b, hb, hbe⟩
  have hsmall : (Char.ofNat b).toNat = b :=
    char_toNat_ofNat_small b (by have := hascii b hb; omega)
  rw [hbe] at hsmall
  have h10 : ('\n' : Char).toNat = 10 := rfl
  rw [h10] at hsmall
  exact hnl (hsmall.symm ▸ hb)

theorem prometheusRecordLine_eq_body (u k : List Char) (v : Nat) :
    prometheusRecordLine u k v = prometheusRecordBody u k v ++ ['\n'] := by
  unfold prometheusRecordLine prometheusRecordBody
  simp [List.append_assoc]

theorem nl_not_mem_prometheusRecordBody (u k : List Char) (v : Nat)
    (hu : '\n' ∉ u) (hk : '\n' ∉ k) :
    '\n' ∉ prometheusRecordBody u k v := by
  intro hmem
  unfold prometheusRecordBody at hmem
  simp only [List.mem_append] at hmem
  rcases hmem with ((((h | h) | h) | h) | h) | h
  · exact absurd h (by decide)
  · exact hu h
  · exact absurd h (by decide)
  · exact hk h
  · exact absurd h (by decide)
  · exact nl_not_mem_natDecimal v h

theorem append_nl_cons (b X : List Char) :
    (b ++ ['\n']) ++ X = b ++ '\n' :: X := by
  rw [List.append_assoc]
  rfl

theorem splitNl_playerRecordBlock_append (u : List Char)
    (d : AggregatedPlayerData) (rest : List Char) (hu : '\n' ∉ u) :
    splitNl (playerRecordBlock u d ++ rest) =
      [prometheusRecordLine u ("break_count".data) d.break_count,
       prometheusRecordLine u ("build_count".data) d.build_count,
       prometheusRecordLine u ("play_ticks".data) d.play_ticks,
       prometheusRecordLine u ("vote_count".data) d.vote_count] ++
        splitNl rest := by
  unfold playerRecordBlock
  simp only [List.append_assoc]
  rw [prometheusRecordLine_eq_body u ("break_count".data) d.break_count,
    prometheusRecordLine_eq_body u ("build_count".data) d.build_count,
    prometheusRecordLine_eq_body u ("play_ticks".data) d.play_ticks,
    prometheusRecordLine_eq_body u ("vote_count".data) d.vote_count]
  rw [append_nl_cons, append_nl_cons, append_nl_cons, append_nl_cons]
  rw [splitNl_append _ _
      (nl_not_mem_prometheusRecordBody _ _ _ hu (by decide)),
    splitNl_append _ _
      (nl_not_mem_prometheusRecordBody _ _ _ hu (by decide)),
    splitNl_append _ _
      (nl_not_mem_prometheusRecordBody _ _ _ hu (by decide)),
    splitNl_append _ _
      (nl_not_mem_prometheusRecordBody _ _ _ hu (by decide))]
  rfl

theorem splitNl_flatMap_blocks (entries : AggMap) :
    (∀ pd ∈ entries, ∀ b ∈ pd.1.uuid.bytes, b ≤ 0x7F) →
    (∀ pd ∈ entries, (10 : Nat) ∉ pd.1.uuid.bytes) →
    splitNl (entries.flatMap (fun pd =>
        playerRecordBlock (uuidChars pd.1) pd.2)) =
      entries.flatMap (fun pd =>
        [prometheusRecordLine (uuidChars pd.1) ("break_count".data)
          pd.2.break_count,
         prometheusRecordLine (uuidChars pd.1) ("build_count".data)
          pd.2.build_count,
         prometheusRecordLine (uuidChars pd.1) ("play_ticks".data)
          pd.2.play_ticks,
         prometheusRecordLine (uuidChars pd.1) ("vote_count".data)
          pd.2.vote_count]) := by
  induction entries with
  | nil =>
    intro _ _
    rfl
  | cons pd rest ih =>
    intro hascii hnl
    rw [List.flatMap_cons, List.flatMap_cons,
      splitNl_playerRecordBlock_append _ _ _
        (nl_not_mem_uuidChars pd.1 (hascii pd (List.mem_cons_self _ _))
          (hnl pd (List.mem_cons_self _ _))),
      ih (fun x hx => hascii x (List.mem_cons_of_mem _ hx))
        (fun x hx => hnl x (List.mem_cons_of_mem _ hx))]

theorem length_flatMap_four {α β : Type} (l : List α) (f : α → List β)
    (hf : ∀ x ∈ l, (f x).length = 4) :
    (l.flatMap f).length = 4 * l.length := by
  induction l with
  | nil => rfl
  | cons x xs ih =>
    rw [List.flatMap_cons, List.length_append,
      hf x (List.mem_cons_self _ _),
      ih (fun y hy => hf y (List.mem_cons_of_mem _ hy)),
      List.length_cons]
    omega

/-- The first header line without its newline. -/
def helpHeaderBody : List Char :=
  "# HELP player_data Player metrics, partitioned by uuid and kind".data

/-- The second header line without its newline. -/
def typeHeaderBody : List Char :=
  "# TYPE player_data gauge".data

theorem helpHeaderLine_eq : helpHeaderLine = helpHeaderBody ++ ['\n'] := by
  decide

theorem typeHeaderLine_eq : typeHeaderLine = typeHeaderBody ++ ['\n'] := by
  decide

/-- Claim C1 (amended): for a set of n validated identities none of whose
bytes is the newline byte 0x0A, the rendered text consists of exactly
2 + 4n newline-terminated lines — the two fixed header lines followed, for
each (identity, aggregate) entry in map order, by the four data lines in
the fixed order break_count, build_count, play_ticks, vote_count, each of
the per-record grammar `prometheusRecordLine` (metric name, label set with
the identity string, single space, base-10 value, newline).  The
no-newline-byte restriction is forced: a validated identity may contain
0x0A, which breaks the line count (see the counterexample). -/
theorem rendered_line_structure (data : KnownAggregatedPlayerData)
    (hascii : ∀ pd ∈ data.map, ∀ b ∈ pd.1.uuid.bytes, b ≤ 0x7F)
    (hnl : ∀ pd ∈ data.map, (10 : Nat) ∉ pd.1.uuid.bytes) :
    ∃ s, present_player_data_as_prometheus_metrics data = .ok s ∧
      splitNl s = [helpHeaderLine, typeHeaderLine] ++
        data.map.flatMap (fun pd =>
          [prometheusRecordLine (uuidChars pd.1) ("break_count".data)
            pd.2.break_count,
           prometheusRecordLine (uuidChars pd.1) ("build_count".data)
            pd.2.build_count,
           prometheusRecordLine (uuidChars pd.1) ("play_ticks".data)
            pd.2.play_ticks,
           prometheusRecordLine (uuidChars pd.1) ("vote_count".data)
            pd.2.vote_count]) ∧
      (splitNl s).length = 2 + 4 * data.map.length ∧
      (∀ l ∈ splitNl s, ∃ body, l = body ++ ['\n'] ∧ '\n' ∉ body) := by
  have hsplit : splitNl (helpHeaderLine ++ typeHeaderLine ++
      data.map.flatMap (fun pd =>
        playerRecordBlock (uuidChars pd.1) pd.2)) =
      [helpHeaderLine, typeHeaderLine] ++
        data.map.flatMap (fun pd =>
          [prometheusRecordLine (uuidChars pd.1) ("break_count".data)
            pd.2.break_count,
           prometheusRecordLine (uuidChars pd.1) ("build_count".data)
            pd.2.build_count,
           prometheusRecordLine (uuidChars pd.1) ("play_ticks".data)
            pd.2.play_ticks,
           prometheusRecordLine (uuidChars pd.1) ("vote_count".data)
            pd.2.vote_count]) := by
    rw [helpHeaderLine_eq, typeHeaderLine_eq, List.append_assoc,
      append_nl_cons, append_nl_cons,
      splitNl_append _ _ (by decide), splitNl_append _ _ (by decide),
      splitNl_flatMap_blocks data.map hascii hnl]
    rfl
  refine ⟨_, present_ok data hascii, hsplit, ?_, ?_⟩
  · rw [hsplit, List.length_append,
      length_flatMap_four data.map (fun pd =>
        [prometheusRecordLine (uuidChars pd.1) ("break_count".data)
          pd.2.break_count,
         prometheusRecordLine (uuidChars pd.1) ("build_count".data)
          pd.2.build_count,
         prometheusRecordLine (uuidChars pd.1) ("play_ticks".data)
          pd.2.play_ticks,
         prometheusRecordLine (uuidChars pd.1) ("vote_count".data)
          pd.2.vote_count]) (fun x _ => rfl)]
    rfl
  · rw [hsplit]
    intro l hl
    rcases List.mem_append.1 hl with h | h
    · rcases List.mem_cons.1 h with rfl | h
      · exact ⟨helpHeaderBody, helpHeaderLine_eq, by decide⟩
      rcases List.mem_cons.1 h with rfl | h
      · exact ⟨typeHeaderBody, typeHeaderLine_eq, by decide⟩
      cases h
    · rcases List.mem_flatMap.1 h with ⟨pd, hpd, hline⟩
      have hu : '\n' ∉ uuidChars pd.1 :=
        nl_not_mem_uuidChars pd.1 (hascii pd hpd) (hnl pd hpd)
      rcases List.mem_cons.1 hline with rfl | hline
      · exact ⟨prometheusRecordBody (uuidChars pd.1) ("break_count".data)
            pd.2.break_count, prometheusRecordLine_eq_body _ _ _,
          nl_not_mem_prometheusRecordBody _ _ _ hu (by decide)⟩
      rcases List.mem_cons.1 hline with rfl | hline
      · exact ⟨prometheusRecordBody (uuidChars pd.1) ("build_count".data)
            pd.2.build_count, prometheusRecordLine_eq_body _ _ _,
          nl_not_mem_prometheusRecordBody _ _ _ hu (by decide)⟩
      rcases List.mem_cons.1 hline with rfl | hline
      · exact ⟨prometheusRecordBody (uuidChars pd.1) ("play_ticks".data)
            pd.2.play_ticks, prometheusRecordLine_eq_body _ _ _,
          nl_not_mem_prometheusRecordBody _ _ _ hu (by decide)⟩
      rcases List.mem_cons.1 hline with rfl | hline
      · exact ⟨prometheusRecordBody (uuidChars pd.1) ("vote_count".data)
            pd.2.vote_count, prometheusRecordLine_eq_body _ _ _,
          nl_not_mem_prometheusRecordBody _ _ _ hu (by decide)⟩
      cases hline

/-- Witness for the amended C1: the concrete single-entry rendering has
exactly 2 + 4 = 6 newline-terminated lines. -/
theorem rendered_line_structure_witness :
    ∃ s, present_player_data_as_prometheus_metrics
        ⟨[(samplePlayer, ⟨1, 2, 3, 4⟩)]⟩ = .ok s ∧
      splitNl s = [helpHeaderLine, typeHeaderLine] ++
        ([(samplePlayer, (⟨1, 2, 3, 4⟩ : AggregatedPlayerData))].flatMap
          (fun pd =>
            [prometheusRecordLine (uuidChars pd.1) ("break_count".data)
              pd.2.break_count,
             prometheusRecordLine (uuidChars pd.1) ("build_count".data)
              pd.2.build_count,
             prometheusRecordLine (uuidChars pd.1) ("play_ticks".data)
              pd.2.play_ticks,
             prometheusRecordLine (uuidChars pd.1) ("vote_count".data)
              pd.2.vote_count])) ∧
      (splitNl s).length = 2 + 4 *
        ([(samplePlayer, (⟨1, 2, 3, 4⟩ : AggregatedPlayerData))]).length ∧
      (∀ l ∈ splitNl s, ∃ body, l = body ++ ['\n'] ∧ '\n' ∉ body) :=
  rendered_line_structure ⟨[(samplePlayer, ⟨1, 2, 3, 4⟩)]⟩
    (by decide) (by decide)

/-- A player whose validated identity contains the newline byte: 36 ASCII
bytes, the first being 0x0A. -/
def newlinePlayer : Player := ⟨⟨10 :: List.replicate 35 49⟩⟩

/-- Counterexample to C1 as stated: the 36-character ASCII string starting
with a newline character passes validation and yields `newlinePlayer`'s
identity, yet rendering the single-entry set for it produces a text that
splits into 10 newline-terminated lines, not 2 + 4 * 1 = 6 — the embedded
newline bytes break the line count, so the claim fails without a
no-newline-byte restriction on identities. -/
theorem rendered_line_count_cex :
    PlayerUuidString.from_string ('\n' :: List.replicate 35 '1') =
      .ok newlinePlayer.uuid ∧
    present_player_data_as_prometheus_metrics
        ⟨[(newlinePlayer, AggregatedPlayerData.default)]⟩ =
      .ok (helpHeaderLine ++ typeHeaderLine ++
        playerRecordBlock (uuidChars newlinePlayer)
          AggregatedPlayerData.default) ∧
    (splitNl (helpHeaderLine ++ typeHeaderLine ++
      playerRecordBlock (uuidChars newlinePlayer)
        AggregatedPlayerData.default)).length = 10 ∧
    (10 : Nat) ≠ 2 + 4 * 1 := by
  refine ⟨rfl, ?_, by decide, by decide⟩
  have h := present_ok ⟨[(newlinePlayer, AggregatedPlayerData.default)]⟩
    (by decide)
  rw [List.flatMap_cons, List.flatMap_nil, List.append_nil] at h
  exact h

/-- Counterexample to C6 as stated: an injected source failure makes the
handler answer with status 500 and the handler's fixed body — but that
fixed body is "Encountered internal server error. Please contact the
server administrator to resolve the issue.", which is not the text
"internal server error, contact the administrator" quoted by the claim. -/
theorem handler_error_body_cex :
    handle_get_metrics (.error (.sourceFailure ("boom".data)))
        (.ok []) (.ok []) (.ok []) = const_error_response ∧
    const_error_response.1 = 500 ∧
    const_error_response.2 ≠
      "internal server error, contact the administrator".data :=
  ⟨rfl, rfl, by decide⟩

/-- Claim C6 (amended): whenever the aggregation-or-rendering pipeline
fails, the handler returns HTTP 500 with the one fixed response of
`const_error_response` (body "Encountered internal server error. Please
contact the server administrator to resolve the issue."); the response is
the same constant for every injected failure, so the underlying error text
never appears in the response body. -/
theorem handler_error_boundary
    (bc : Except TranslatorErr (List PlayerBreakCount))
    (bu : Except TranslatorErr (List PlayerBuildCount))
    (pt : Except TranslatorErr (List PlayerPlayTicks))
    (vc : Except TranslatorErr (List PlayerVoteCount))
    (hfail : ∃ e, (get_all_known_aggregated_player_data bc bu pt vc).bind
      present_player_data_as_prometheus_metrics = .error e) :
    handle_get_metrics bc bu pt vc = const_error_response ∧
    const_error_response.1 = 500 := by
  rcases hfail with ⟨e, he⟩
  unfold handle_get_metrics
  rw [he]
  exact ⟨rfl, rfl⟩

/-- Witness for the amended C6: a concrete injected source failure. -/
theorem handler_error_boundary_witness :
    handle_get_metrics (.error (.sourceFailure ("connection reset".data)))
      (.ok []) (.ok []) (.ok []) = const_error_response ∧
    const_error_response.1 = 500 :=
  handler_error_boundary _ _ _ _
    ⟨.sourceFailure ("connection reset".data), rfl⟩

end SeichiTranslator
